import Mathlib

/-!
# Verification of `iscript/src/iscript/mac.py`

A shallow embedding, in Lean 4, of the mac signing/notarization functions of
`iscript.mac`, together with theorems settling the specification claims.

Conventions of the embedding:
* Python exceptions become `Except PyError`.
* The filesystem is passed explicitly (directory listings as `List String`,
  bundle file trees as lists of component paths `List String`).
* External subprocess invocations (`run_command`, `extract_tarball`,
  `create_zipfile`) are modelled as succeeding; only the command lists the
  code builds and the control flow around them are embedded.
* Python dynamic errors that the source triggers (unbound local names,
  wrong-arity calls) are embedded as explicit `PyError` values, since they
  are part of the source's behaviour.
-/

namespace IscriptMac

/-- Paths are compared by decidable equality throughout, so that counting
lemmas and the evaluation of witnesses agree on one `BEq` instance. -/
instance (priority := 2000) : BEq (List String) := instBEqOfDecidableEq

/-- Errors raised by the embedded code.  `iScriptError` and `unknownAppDir`
mirror `iscript.exceptions.IScriptError` / `UnknownAppDir`; `typeError` and
`nameError` model Python dynamic errors the source raises. -/
inductive PyError where
  | iScriptError (msg : String)
  | unknownAppDir (msg : String)
  | typeError (msg : String)
  | nameError (name : String)
  deriving Repr, DecidableEq

/-- The `App` attr-class (`mac.py` lines 42-48): all five attributes default
to the empty string. -/
structure App where
  orig_path : String := ""
  parent_dir : String := ""
  app_path : String := ""
  zip_path : String := ""
  notary_log_path : String := ""
  deriving Repr, DecidableEq

/-- Python `getattr(app, att)` for the five declared attributes; `none`
models a missing attribute (`hasattr` false). -/
def App.getAttr (app : App) : String → Option String
  | "orig_path" => some app.orig_path
  | "parent_dir" => some app.parent_dir
  | "app_path" => some app.app_path
  | "zip_path" => some app.zip_path
  | "notary_log_path" => some app.notary_log_path
  | _ => none

/-- `App.check_required_attrs` (lines 50-62): raise `IScriptError` on the
first attribute that is absent or falsy (empty string). -/
def App.check_required_attrs (app : App) : List String → Except PyError Unit
  | [] => .ok ()
  | att :: rest =>
    match app.getAttr att with
    | none => .error (.iScriptError ("Missing " ++ att ++ " attr!"))
    | some v =>
      if v = "" then .error (.iScriptError ("Missing " ++ att ++ " attr!"))
      else app.check_required_attrs rest

/-- `os.path.basename`: the final path component. -/
def basename (p : String) : String := ((p.splitOn ("/")).getLastD (""))

-- get_app_dir {{{1

/-- The glob `'{parent_dir}/*.app'` (line 189), over an explicit listing
`entries` of the names in `parent_dir`: `*` matches any non-hidden name, so
a name matches when it ends in `.app` and does not start with `.`. -/
def globApp (parent_dir : String) (entries : List String) : List String :=
  (entries.filter
    (fun e => ".app".data.isSuffixOf e.data && !(".".data.isPrefixOf e.data))).map
    (fun e => parent_dir ++ "/" ++ e)

/-- `get_app_dir` (lines 177-194): return the single `.app` match, raising
`UnknownAppDir` when the match count is not exactly one.  Pure: the only
effect is the returned value. -/
def get_app_dir (parent_dir : String) (entries : List String) :
    Except PyError String :=
  match globApp parent_dir entries with
  | [a] => .ok a
  | _ => .error (.unknownAppDir ("Cant find a single .app in " ++ parent_dir))

-- get_key_config {{{1

/-- One entry of `config['mac_config']`: the per-key sub-configuration used
by `mac.py`. -/
structure KeyConfig where
  identity : String := ""
  signing_keychain : String := ""
  keychain_password : String := ""
  base_bundle_id : String := ""
  apple_notarization_account : String := ""
  apple_notarization_password : String := ""
  notarize_type : String := ""
  deriving Repr, DecidableEq

/-- The running config fields `mac.py` reads. -/
structure Config where
  work_dir : String := ""
  mac_config : List (String × KeyConfig) := []
  local_notarization_accounts : List String := []
  deriving Repr, DecidableEq

/-- `get_key_config` (lines 198-216): dictionary lookup of the key,
`IScriptError` on `KeyError`. -/
def get_key_config (config : Config) (key : String) : Except PyError KeyConfig :=
  match config.mac_config.lookup key with
  | some kc => .ok kc
  | none => .error (.iScriptError ("Unknown key config mac_config " ++ key))

-- unlock_keychain {{{1

/-- How the spawned `security unlock-keychain` interaction ends, as seen by
the `expect` loop: end-of-output, or a timeout. -/
inductive ExpectEnd where
  | eof
  | timeout
  deriving Repr, DecidableEq

/-- The `while True` expect loop of `unlock_keychain` (lines 160-164), with
the child's behaviour abstracted as the number of password prompts shown
before the stream ends.  Returns the lines the code sends and whether the
loop reached EOF (`true`) or timed out (`false`).  Note the source sends the
literal bytes `b'keychain_password'` (line 164), not the value of the
`keychain_password` argument. -/
def unlock_keychain_loop : Nat → ExpectEnd → List String × Bool
  | 0, .eof => ([], true)
  | 0, .timeout => ([], false)
  | prompts + 1, fin =>
    let r := unlock_keychain_loop prompts fin
    ("keychain_password" :: r.1, r.2)

/-- `unlock_keychain` (lines 147-173): run the expect loop, raise on
timeout, then raise unless the child exited 0 with no terminating signal.
Returns the lines sent to the child alongside the outcome. -/
def unlock_keychain (signing_keychain : String) (keychain_password : String)
    (prompts : Nat) (fin : ExpectEnd) (exitstatus : Int)
    (signalstatus : Option Int) : List String × Except PyError Unit :=
  let r := unlock_keychain_loop prompts fin
  if r.2 = false then
    (r.1, .error (.iScriptError
      ("Timeout trying to unlock the keychain " ++ signing_keychain)))
  else if exitstatus ≠ 0 ∨ signalstatus ≠ none then
    (r.1, .error (.iScriptError ("Failed unlocking " ++ signing_keychain)))
  else
    (r.1, .ok ())

-- get_app_paths / extract_all_apps {{{1

/-- One entry of `task['payload']['upstreamArtifacts']`. -/
structure UpstreamArtifact where
  taskId : String
  paths : List String
  deriving Repr, DecidableEq

/-- The task fields `mac.py` reads. -/
structure Task where
  upstreamArtifacts : List UpstreamArtifact
  deriving Repr, DecidableEq

/-- Modelled from the spec: `get_artifact_path` lives in
`scriptworker_client.utils`, not under `src/`; per the spec it derives the
extraction target from the originating task identifier and the relative
path, under the work directory. -/
def get_artifact_path (taskId : String) (subpath : String) (work_dir : String) :
    String :=
  work_dir ++ "/cot/" ++ taskId ++ "/" ++ subpath

/-- `get_app_paths` (lines 220-240): one `App` per (artifact, subpath), with
only `orig_path` set. -/
def get_app_paths (config : Config) (task : Task) : List App :=
  task.upstreamArtifacts.flatMap (fun ua =>
    ua.paths.map (fun subpath =>
      { orig_path := get_artifact_path ua.taskId subpath config.work_dir }))

/-- The enumerated loop body of `extract_all_apps` (lines 255-263): check
`orig_path`, set `parent_dir := work_dir/<counter>`; the tarball extraction
itself is an external command, modelled as succeeding. -/
def extract_apps_go (work_dir : String) : Nat → List App →
    Except PyError (List App)
  | _, [] => .ok []
  | counter, app :: rest =>
    match app.check_required_attrs ["orig_path"] with
    | .error e => .error e
    | .ok _ =>
      let app' := { app with parent_dir := work_dir ++ "/" ++ toString counter }
      match extract_apps_go work_dir (counter + 1) rest with
      | .error e => .error e
      | .ok rest' => .ok (app' :: rest')

/-- `extract_all_apps` (lines 244-264). -/
def extract_all_apps (work_dir : String) (all_paths : List App) :
    Except PyError (List App) :=
  extract_apps_go work_dir 0 all_paths

-- create_all_app_zipfiles {{{1

/-- Arguments of one `create_zipfile(zip_path, app_path, parent_dir)` call. -/
structure ZipCall where
  zip_path : String
  app_path : String
  parent_dir : String
  deriving Repr, DecidableEq

/-- `create_all_app_zipfiles` (lines 268-292): for each app, first run
`check_required_attrs(['parent_dir', 'zip_path', 'app_path'])` — note the
check runs before `zip_path` is assigned on line 283 — then set `zip_path`
and queue the zipfile creation (an external operation modelled as succeeding).
Returns the updated apps and the queued calls. -/
def create_all_app_zipfiles : List App → Except PyError (List (App × ZipCall))
  | [] => .ok []
  | app :: rest =>
    match app.check_required_attrs ["parent_dir", "zip_path", "app_path"] with
    | .error e => .error e
    | .ok _ =>
      let zp := app.parent_dir ++ "/" ++ basename app.parent_dir ++ ".zip"
      let app' := { app with zip_path := zp }
      match create_all_app_zipfiles rest with
      | .error e => .error e
      | .ok rest' =>
        .ok ((app', ⟨zp, app.app_path, app.parent_dir⟩) :: rest')

-- get_bundle_id {{{1

/-- The fields of `arrow.utcnow()` that `get_bundle_id` reads: `timestamp`
(whole seconds) and `microsecond` (the sub-second component). -/
structure ArrowTime where
  timestamp : Nat
  microsecond : Nat
  deriving Repr, DecidableEq

/-- `get_bundle_id` (lines 318-334): concatenate the base id, the `TASK_ID`
environment value (or the sentinel `'None'`), and the unpadded decimal
rendering of seconds followed by microseconds. -/
def get_bundle_id (base_bundle_id : String) (task_id : Option String)
    (now : ArrowTime) : String :=
  base_bundle_id ++ "." ++ task_id.getD ("None") ++ "." ++
    (toString now.timestamp ++ toString now.microsecond)

-- wrap_notarization_with_sudo: submission commands {{{1

/-- `base_cmd` (lines 364-371) for one submission. -/
def submission_base_cmd (account : String) (zip_path : String)
    (bundle_id : String) (key_config : KeyConfig) : List String :=
  ["sudo", "-u", account,
   "xcrun", "altool", "--notarize-app",
   "-f", zip_path,
   "--primary-bundle-id", bundle_id,
   "-u", key_config.apple_notarization_account,
   "--password"]

/-- `log_cmd` (line 372): the command as logged, `base_cmd` plus the fixed
mask. -/
def submission_log_cmd (account : String) (zip_path : String)
    (bundle_id : String) (key_config : KeyConfig) : List String :=
  submission_base_cmd account zip_path bundle_id key_config ++ ["********"]

/-- The command actually executed (line 376): `base_cmd` plus the real
notarization password. -/
def submission_exec_cmd (account : String) (zip_path : String)
    (bundle_id : String) (key_config : KeyConfig) : List String :=
  submission_base_cmd account zip_path bundle_id key_config ++
    [key_config.apple_notarization_password]

-- sign: the two-phase file selection {{{1

/-- One component of a glob pattern: a literal name, or `*<suffix>` (the
only wildcard that occurs in `INITIAL_FILES_TO_SIGN` is `*.dylib`). -/
inductive PatComponent where
  | lit (s : String)
  | star (suffix : String)
  deriving Repr, DecidableEq

/-- Glob matching of one path component: a literal matches itself; `*suffix`
matches any non-hidden component ending in `suffix` (glob `*` does not cross
`/` and skips names starting with a dot). -/
def matchComponent : PatComponent → String → Bool
  | .lit s, c => s = c
  | .star suffix, c => suffix.data.isSuffixOf c.data && !(".".data.isPrefixOf c.data)

/-- Glob matching of a whole pattern against a path, componentwise.  Paths
are relative to the bundle root, as lists of components. -/
def matchPattern : List PatComponent → List String → Bool
  | [], [] => true
  | p :: ps, c :: cs => matchComponent p c && matchPattern ps cs
  | _, _ => false

/-- An all-literal pattern. -/
def litPat (ls : List String) : List PatComponent := ls.map .lit

/-- `INITIAL_FILES_TO_SIGN` (lines 29-39), with each glob string split into
components. -/
def INITIAL_FILES_TO_SIGN : List (List PatComponent) :=
  [litPat ["Contents", "MacOS", "XUL"],
   litPat ["Contents", "MacOS", "pingsender"],
   [.lit ("Contents"), .lit ("MacOS"), .star (".dylib")],
   litPat ["Contents", "MacOS", "crashreporter.app", "Contents", "MacOS",
           "minidump-analyzer"],
   litPat ["Contents", "MacOS", "crashreporter.app", "Contents", "MacOS",
           "crashreporter"],
   litPat ["Contents", "MacOS", "firefox-bin"],
   litPat ["Contents", "MacOS", "plugin-container.app", "Contents", "MacOS",
           "plugin-container"],
   litPat ["Contents", "MacOS", "updater.app", "Contents", "MacOS",
           "org.mozilla.updater"],
   litPat ["Contents", "MacOS", "firefox"]]

/-- The `initial_files` list built on lines 86-88: for each pattern in
order, every file of the bundle (the `files` listing models the extracted
bundle's file tree) matching the glob. -/
def initial_files (files : List (List String)) : List (List String) :=
  INITIAL_FILES_TO_SIGN.flatMap (fun pat => files.filter (fun p => matchPattern pat p))

/-- The files signed by the second phase (lines 110-112): everything
`list_files` yields that is not in `initial_files`. -/
def remaining_files (files : List (List String)) : List (List String) :=
  files.filter (fun p => !decide (p ∈ initial_files files))

/-- The per-file `codesign` invocation (lines 98-102 and 117-121). -/
def codesign_file_cmd (identity : String) (entitlements_path : String)
    (path : String) : List String :=
  ["codesign", "--force", "-o", "runtime", "--verbose",
   "--sign", identity, "--entitlements", entitlements_path, path]

/-- One observable action of `sign`. -/
inductive SignEvent where
  | signFile (path : List String)
  | signBundle
  | verify
  deriving Repr, DecidableEq

/-- The sequence of signing actions `sign` performs on one bundle
(lines 90-143): the initial files, then the remaining files, then the
bundle as a unit, then the verification.  The two awaited phase barriers
(lines 106 and 125) are what orders phase one before phase two. -/
def sign_events (files : List (List String)) : List SignEvent :=
  (initial_files files).map .signFile ++ (remaining_files files).map .signFile
    ++ [.signBundle, .verify]

-- raise_future_exceptions {{{1

/-- The failure carried by one settled outcome, if any. -/
def error_of_outcome {ε : Type} : Except ε Unit → Option ε
  | .error e => some e
  | .ok _ => none

/-- Modelled from the spec: `raise_future_exceptions` lives in
`iscript.utils`, not under `src/`.  Per the spec it awaits every in-flight
operation, collects every failure, and reports them together as one
aggregate error; each settled operation's outcome is an `Except`. -/
def raise_future_exceptions {ε : Type} (outcomes : List (Except ε Unit)) :
    Except (List ε) Unit :=
  match outcomes.filterMap error_of_outcome with
  | [] => .ok ()
  | errs => .error errs

/-- The aggregate outcome of one concurrent per-file phase of `sign`
(lines 90-106 or 108-125): each file's `codesign` invocation either fails
with a message naming it (`outcome p = some e`) or succeeds, and the phase
result is the join of all of them. -/
def sign_phase_result (files : List (List String))
    (outcome : List String → Option String) : Except (List String) Unit :=
  raise_future_exceptions (files.map (fun p =>
    match outcome p with
    | some e => Except.error e
    | none => Except.ok ()))

-- sign_all_apps {{{1

/-- `sign_all_apps` (lines 296-314): each iteration evaluates
`sign(key_config, app, entitlements_path)` — but `sign` (line 66) takes the
four parameters `(config, app, key, entitlements_path)`, so the call raises
`TypeError` as soon as there is one app to sign. -/
def sign_all_apps (key_config : KeyConfig) (entitlements_path : String)
    (all_paths : List App) : Except PyError Unit :=
  match all_paths with
  | [] => .ok ()
  | _ :: _ =>
    .error (.typeError
      "sign() missing 1 required positional argument: entitlements_path")

-- wrap_notarization_with_sudo: the wave loop {{{1

/-- One pass of the `for account in accounts` body (lines 360-384) starting
at `counter`, over `n` records: pair each account with the next record
index, stopping early when the incremented counter reaches `n` (the
`break`).  Returns the wave and the updated counter.  The caller only
enters this with `counter < n` (the `while` guard). -/
def notarization_wave (n : Nat) : List String → Nat → List (String × Nat) × Nat
  | [], counter => ([], counter)
  | account :: accounts, counter =>
    if n ≤ counter + 1 then ([(account, counter)], counter + 1)
    else
      let r := notarization_wave n accounts (counter + 1)
      ((account, counter) :: r.1, r.2)

/-- The `while counter < len(all_paths)` loop (lines 358-385), with an
explicit fuel bound standing in for the number of iterations actually run:
`none` means the fuel elapsed with the loop still running (non-termination
when no fuel suffices).  Each wave settles (`await`, line 385) before the
next wave begins. -/
def notarization_waves (accounts : List String) (n : Nat) :
    Nat → Nat → Option (List (List (String × Nat)))
  | 0, _ => none
  | fuel + 1, counter =>
    if counter < n then
      let w := notarization_wave n accounts counter
      match notarization_waves accounts n fuel w.2 with
      | none => none
      | some ws => some (w.1 :: ws)
    else some []

/-- The pre-loop check (lines 355-356): every app must have `zip_path`
set. -/
def check_zip_paths : List App → Except PyError Unit
  | [] => .ok ()
  | app :: rest =>
    match app.check_required_attrs ["zip_path"] with
    | .error e => .error e
    | .ok _ => check_zip_paths rest

/-- `wrap_notarization_with_sudo` (lines 337-387): check `zip_path` on every
app, then run the wave loop; each submission issues `submission_exec_cmd`
for its account and record.  `now i` is the clock reading when the `i`-th
record's bundle id is generated, `task_id` the `TASK_ID` environment value.
The `.ok none` case is the loop running out of fuel (no iteration bound
makes it finish). -/
def wrap_notarization_with_sudo (config : Config) (key_config : KeyConfig)
    (all_paths : List App) (now : Nat → ArrowTime) (task_id : Option String)
    (fuel : Nat) : Except PyError (Option (List (List (List String)))) :=
  match check_zip_paths all_paths with
  | .error e => .error e
  | .ok _ =>
    match notarization_waves config.local_notarization_accounts
        all_paths.length fuel 0 with
    | none => .ok none
    | some ws =>
      .ok (some (ws.map (fun w => w.map (fun ai =>
        submission_exec_cmd ai.1 (all_paths.getD ai.2 {}).zip_path
          (get_bundle_id key_config.base_bundle_id task_id (now ai.2))
          key_config))))

-- sign_and_notarize_all {{{1

/-- The stages of `sign_and_notarize_all` (lines 391-427), in the order the
source starts them. -/
inductive Stage where
  | resolveKeyConfig
  | deriveRecords
  | extractAll
  | unlockKeychain
  | signAll
  | createZipfiles
  | submitWaves
  deriving Repr, DecidableEq

/-- `sign_and_notarize_all` (lines 391-427): the orchestrator.  External
commands (tarball extraction, the keychain unlock interaction, `codesign`)
are modelled as succeeding; the embedded control flow and the dynamic
errors of the source remain.  Returns the trace of stages started and the
outcome.  Note `poll_uuids` (line 417) is bound only inside the
`multi_account` branch, yet read unconditionally on line 419. -/
def sign_and_notarize_all (config : Config) (task : Task) :
    List Stage × Except PyError Unit :=
  match get_key_config config ("dep") with
  | .error e => ([.resolveKeyConfig], .error e)
  | .ok key_config =>
    let all_paths := get_app_paths config task
    match extract_all_apps config.work_dir all_paths with
    | .error e => ([.resolveKeyConfig, .deriveRecords, .extractAll], .error e)
    | .ok all_paths =>
      match sign_all_apps key_config
          (config.work_dir ++ "/browser.entitlements.txt") all_paths with
      | .error e =>
        ([.resolveKeyConfig, .deriveRecords, .extractAll, .unlockKeychain,
          .signAll], .error e)
      | .ok _ =>
        let trace := [Stage.resolveKeyConfig, .deriveRecords, .extractAll,
          .unlockKeychain, .signAll]
        if key_config.notarize_type = "multi_account" then
          match create_all_app_zipfiles all_paths with
          | .error e => (trace ++ [.createZipfiles], .error e)
          | .ok _ =>
            (trace ++ [.createZipfiles, .submitWaves], .ok ())
        else
          (trace, .error (.nameError ("poll_uuids")))

-- spec predicates and example inputs {{{1

/-- The wave-schedule contract of the sudo notarization loop over `n`
records: submissions (identified by record index) cover each record exactly
once in order, each wave takes at most one record per account with the
accounts drawn in pool order, and the number of waves is the ceiling of
`n` divided by the pool size. -/
def WaveScheduleSpec (accounts : List String) (n : Nat)
    (ws : List (List (String × Nat))) : Prop :=
  (ws.flatten.map Prod.snd = List.range' 0 n) ∧
  (∀ i, i < n → (ws.flatten.map Prod.snd).count i = 1) ∧
  (∀ w, w ∈ ws → w.length ≤ accounts.length ∧
    w.map Prod.fst = accounts.take w.length) ∧
  (accounts.Nodup → ∀ w, w ∈ ws → (w.map Prod.fst).Nodup) ∧
  ws.length = (n + accounts.length - 1) / accounts.length

/-- The two-phase contract of `sign` on one bundle: no per-file signing
command sees any path twice, each initial-glob match is signed exactly
once, the second phase signs exactly the files not handled by the first,
and initial signing precedes remaining-file signing precedes bundle
signing precedes verification. -/
def SignerTwoPhaseSpec (files : List (List String)) : Prop :=
  (∀ p, (sign_events files).count (SignEvent.signFile p) ≤ 1) ∧
  (∀ p, p ∈ initial_files files →
    (sign_events files).count (SignEvent.signFile p) = 1) ∧
  (∀ p, p ∈ remaining_files files ↔ p ∈ files ∧ p ∉ initial_files files) ∧
  (∀ p q, p ∈ initial_files files → q ∈ remaining_files files →
    (sign_events files).indexOf (SignEvent.signFile p) <
      (sign_events files).indexOf (SignEvent.signFile q)) ∧
  (∀ p, p ∈ files →
    (sign_events files).indexOf (SignEvent.signFile p) <
      (sign_events files).indexOf SignEvent.signBundle) ∧
  (sign_events files).indexOf SignEvent.signBundle <
    (sign_events files).indexOf SignEvent.verify

/-- A concrete key configuration used by witnesses. -/
def exampleKeyConfig : KeyConfig :=
  { identity := "dep-identity",
    signing_keychain := "/keychains/dep.keychain",
    keychain_password := "kc-pass",
    base_bundle_id := "org.mozilla.firefox",
    apple_notarization_account := "notary@mozilla.com",
    apple_notarization_password := "hunter2",
    notarize_type := "multi_account" }

/-- A concrete app record in the packaged state, used by witnesses. -/
def exampleApp : App :=
  { orig_path := "work/cot/T1/public/build/target.tar.gz",
    parent_dir := "work/0",
    app_path := "work/0/Firefox.app",
    zip_path := "work/0/0.zip",
    notary_log_path := "work/0/notary.log" }

/-- A concrete bundle file tree used by witnesses. -/
def exampleBundleFiles : List (List String) :=
  [["Contents", "MacOS", "firefox"],
   ["Contents", "MacOS", "libnss3.dylib"],
   ["Contents", "MacOS", "XUL"],
   ["Contents", "Resources", "omni.ja"]]

/-- A concrete failure assignment used by witnesses: two of the signing
subprocesses of one phase fail. -/
def exampleOutcome : List String → Option String :=
  fun f =>
    if f = ["Contents", "MacOS", "firefox"] then some ("codesign failed: firefox")
    else if f = ["Contents", "MacOS", "XUL"] then some ("codesign failed: XUL")
    else none

-- theorems {{{1

/-- C9: `get_app_dir` returns the single bundle directory beneath the given
parent when exactly one entry matches the `*.app` glob, and raises
`UnknownAppDir` precisely when the number of matches is 0 or at least 2; it
is a pure function of its inputs. -/
theorem get_app_dir_single_bundle (parent_dir : String) (entries : List String) :
    (∀ a, get_app_dir parent_dir entries = Except.ok a ↔
      globApp parent_dir entries = [a]) ∧
    ((∃ msg, get_app_dir parent_dir entries =
        Except.error (PyError.unknownAppDir msg)) ↔
      (globApp parent_dir entries).length = 0 ∨
        2 ≤ (globApp parent_dir entries).length) := by
  unfold get_app_dir
  rcases hG : globApp parent_dir entries with _ | ⟨a, _ | ⟨b, l⟩⟩ <;>
    constructor <;> simp

/-- C1 (code bug): on a stream that shows the password prompt once and then
ends, `unlock_keychain` sends the literal line `keychain_password` to the
child, not the configured keychain password (here `hunter2`). -/
theorem unlock_keychain_sends_literal :
    (unlock_keychain ("/keychains/dep.keychain") ("hunter2") 1
      ExpectEnd.eof 0 none).1 = ["keychain_password"] ∧
    (unlock_keychain ("/keychains/dep.keychain") ("hunter2") 1
      ExpectEnd.eof 0 none).2 = Except.ok () ∧
    (["keychain_password"] : List String) ≠ ["hunter2"] :=
  ⟨rfl, rfl, by decide⟩

/-- C2 (code bug): on a record in the post-extraction, post-signing state
(`parent_dir` and `app_path` set, `zip_path` not yet set),
`create_all_app_zipfiles` raises the missing-attribute error for `zip_path`
instead of setting it, because the required-attribute check runs before the
assignment. -/
theorem create_all_app_zipfiles_missing_zip_path :
    create_all_app_zipfiles
      [{ orig_path := "work/cot/T1/public/build/target.tar.gz",
         parent_dir := "work/0", app_path := "work/0/Firefox.app" }] =
      Except.error (PyError.iScriptError ("Missing zip_path attr!")) := rfl

/-- C3 (code bug): the orchestrator starts its stages in the claimed order
(resolve key config, derive records, extract, unlock, sign), but the run
never completes without error: with any record present, `sign_all_apps`
calls `sign` with three of its four required arguments (TypeError), and
with no record, the non-`multi_account` path reads the unbound local
`poll_uuids` (NameError). -/
theorem sign_and_notarize_all_crashes :
    (sign_and_notarize_all
        { work_dir := "work",
          mac_config := [("dep", { notarize_type := "dep" })] }
        { upstreamArtifacts := [{ taskId := "T1", paths := ["p/t.tar.gz"] }] } =
      ([.resolveKeyConfig, .deriveRecords, .extractAll, .unlockKeychain,
        .signAll],
       Except.error (PyError.typeError
        ("sign() missing 1 required positional argument: entitlements_path")))) ∧
    (sign_and_notarize_all
        { work_dir := "work",
          mac_config := [("dep", { notarize_type := "dep" })] }
        { upstreamArtifacts := [] } =
      ([.resolveKeyConfig, .deriveRecords, .extractAll, .unlockKeychain,
        .signAll],
       Except.error (PyError.nameError ("poll_uuids")))) :=
  ⟨rfl, rfl⟩

/-- C5 counterexample: when the configured notarization password is the
mask string itself, the logged command does contain the configured password
value, so the claim as universally stated fails. -/
theorem submission_log_cmd_contains_password :
    ({ apple_notarization_password := "********" } : KeyConfig).apple_notarization_password
      ∈ submission_log_cmd ("acct1") ("work/0/0.zip")
        ("org.mozilla.firefox.None.10")
        { apple_notarization_password := "********" } := by decide

/-- C5 amended: the logged command always ends in the fixed mask and never
contains the configured password provided the password is neither the mask
itself nor equal to one of the other command fields; the executed command
carries the real password as its final argument; and the logged command is
independent of the password (two key configurations agreeing on the
notarization account log identically). -/
theorem submission_log_cmd_redaction (account : String) (zip_path : String)
    (bundle_id : String) (kc : KeyConfig)
    (hmask : kc.apple_notarization_password ≠ "********")
    (hfields : kc.apple_notarization_password ∉
      submission_base_cmd account zip_path bundle_id kc) :
    kc.apple_notarization_password ∉
      submission_log_cmd account zip_path bundle_id kc ∧
    (submission_log_cmd account zip_path bundle_id kc).getLast? =
      some "********" ∧
    (submission_exec_cmd account zip_path bundle_id kc).getLast? =
      some kc.apple_notarization_password ∧
    ∀ kc2 : KeyConfig,
      kc2.apple_notarization_account = kc.apple_notarization_account →
      submission_log_cmd account zip_path bundle_id kc2 =
        submission_log_cmd account zip_path bundle_id kc := by
  refine ⟨?_, List.getLast?_concat _, List.getLast?_concat _, ?_⟩
  · rw [submission_log_cmd, List.mem_append]
    rintro (h | h)
    · exact hfields h
    · exact hmask (List.mem_singleton.1 h)
  · intro kc2 h
    simp [submission_log_cmd, submission_base_cmd, h]

/-- Witness for the amended C5 at a concrete configuration. -/
theorem submission_log_cmd_redaction_witness :
    exampleKeyConfig.apple_notarization_password ≠ "********" ∧
    exampleKeyConfig.apple_notarization_password ∉
      submission_base_cmd ("acct1") ("work/0/0.zip")
        ("org.mozilla.firefox.None.10") exampleKeyConfig ∧
    (exampleKeyConfig.apple_notarization_password ∉
      submission_log_cmd ("acct1") ("work/0/0.zip")
        ("org.mozilla.firefox.None.10") exampleKeyConfig ∧
    (submission_log_cmd ("acct1") ("work/0/0.zip")
        ("org.mozilla.firefox.None.10") exampleKeyConfig).getLast? =
      some "********" ∧
    (submission_exec_cmd ("acct1") ("work/0/0.zip")
        ("org.mozilla.firefox.None.10") exampleKeyConfig).getLast? =
      some exampleKeyConfig.apple_notarization_password ∧
    ∀ kc2 : KeyConfig,
      kc2.apple_notarization_account = exampleKeyConfig.apple_notarization_account →
      submission_log_cmd ("acct1") ("work/0/0.zip")
          ("org.mozilla.firefox.None.10") kc2 =
        submission_log_cmd ("acct1") ("work/0/0.zip")
          ("org.mozilla.firefox.None.10") exampleKeyConfig) :=
  ⟨by decide, by decide,
    submission_log_cmd_redaction _ _ _ _ (by decide) (by decide)⟩

/-- C10: with an empty local account pool and at least one record, every
iteration of the wave loop issues no submissions and leaves the counter
unchanged, and `wrap_notarization_with_sudo` never terminates: no fuel
bound makes the loop finish. -/
theorem wrap_notarization_empty_accounts_diverges (config : Config)
    (key_config : KeyConfig) (all_paths : List App) (now : Nat → ArrowTime)
    (task_id : Option String)
    (hacc : config.local_notarization_accounts = [])
    (hne : all_paths ≠ [])
    (hzip : check_zip_paths all_paths = Except.ok ()) :
    (∀ counter, notarization_wave all_paths.length [] counter = ([], counter)) ∧
    ∀ fuel, wrap_notarization_with_sudo config key_config all_paths now
      task_id fuel = Except.ok none := by
  have hn : 0 < all_paths.length := List.length_pos.2 hne
  have key : ∀ fuel counter, counter < all_paths.length →
      notarization_waves [] all_paths.length fuel counter = none := by
    intro fuel
    induction fuel with
    | zero => intro c _; rfl
    | succ k ih =>
      intro c hc
      unfold notarization_waves
      rw [if_pos hc]
      have hw : notarization_wave all_paths.length [] c = ([], c) := rfl
      rw [hw]
      dsimp only
      rw [ih c hc]
  refine ⟨fun _ => rfl, fun fuel => ?_⟩
  unfold wrap_notarization_with_sudo
  rw [hzip, hacc, key fuel 0 hn]

/-- C4 counterexample: two calls in the same run, at distinct clock
readings and with the same base identifier and task id, can return the same
bundle identifier, because the seconds and microseconds are concatenated
without padding (12s+3us and 1s+23us both render as 123). -/
theorem get_bundle_id_collision :
    ((⟨12, 3⟩ : ArrowTime) ≠ ⟨1, 23⟩) ∧
    get_bundle_id ("org.mozilla.firefox") (some ("TASKID123")) ⟨12, 3⟩ =
      get_bundle_id ("org.mozilla.firefox") (some ("TASKID123")) ⟨1, 23⟩ :=
  ⟨by decide, rfl⟩

/-- C4 amended: two calls with the same base identifier and task id return
distinct bundle identifiers precisely when the concatenated decimal
renderings of their clock readings differ (equal readings, or unpadded
collisions such as 12s+3us versus 1s+23us, yield equal identifiers). -/
theorem get_bundle_id_inj (base_bundle_id : String) (task_id : Option String)
    (t1 t2 : ArrowTime)
    (h : toString t1.timestamp ++ toString t1.microsecond ≠
      toString t2.timestamp ++ toString t2.microsecond) :
    get_bundle_id base_bundle_id task_id t1 ≠
      get_bundle_id base_bundle_id task_id t2 := by
  intro heq
  apply h
  have hd := congrArg String.data heq
  simp only [get_bundle_id, String.data_append, List.append_assoc] at hd
  apply String.ext
  simp only [String.data_append]
  exact List.append_cancel_left (List.append_cancel_left
    (List.append_cancel_left (List.append_cancel_left hd)))

/-- Witness for the amended C4 at two concrete clock readings. -/
theorem get_bundle_id_inj_witness :
    (toString (⟨100, 1⟩ : ArrowTime).timestamp ++
        toString (⟨100, 1⟩ : ArrowTime).microsecond ≠
      toString (⟨100, 2⟩ : ArrowTime).timestamp ++
        toString (⟨100, 2⟩ : ArrowTime).microsecond) ∧
    get_bundle_id ("org.mozilla.firefox") (some ("TASKID123")) ⟨100, 1⟩ ≠
      get_bundle_id ("org.mozilla.firefox") (some ("TASKID123")) ⟨100, 2⟩ :=
  ⟨by decide, get_bundle_id_inj _ _ _ _ (by decide)⟩

/-- Join of settled outcomes: when at least one failed, the aggregate error
is raised and carries exactly the errors of all failed outcomes. -/
theorem raise_future_exceptions_error {ε : Type} (outcomes : List (Except ε Unit))
    (e0 : ε) (h : Except.error e0 ∈ outcomes) :
    ∃ errs, raise_future_exceptions outcomes = Except.error errs ∧
      ∀ x, x ∈ errs ↔ Except.error x ∈ outcomes := by
  have hx : ∀ x : ε,
      x ∈ outcomes.filterMap error_of_outcome ↔ Except.error x ∈ outcomes := by
    intro x
    rw [List.mem_filterMap]
    constructor
    · rintro ⟨o, ho, hfo⟩
      cases o with
      | error e =>
        injection hfo with he
        exact he ▸ ho
      | ok u => cases hfo
    · intro hmem
      exact ⟨Except.error x, hmem, rfl⟩
  refine ⟨outcomes.filterMap error_of_outcome, ?_, hx⟩
  unfold raise_future_exceptions
  rcases hfm : outcomes.filterMap error_of_outcome with _ | ⟨a, t⟩
  · exfalso
    have hm := (hx e0).2 h
    rw [hfm] at hm
    cases hm
  · rfl

/-- C6: when two of the concurrent per-file signing operations of one phase
fail, the single aggregate error reported for the phase carries both
failures, and more generally the failure of every operation in the phase
(so nothing is reported before every outcome has settled). -/
theorem sign_phase_error_aggregation (files : List (List String))
    (outcome : List String → Option String) (p q : List String)
    (e1 e2 : String) (hp : p ∈ files) (hq : q ∈ files)
    (h1 : outcome p = some e1) (h2 : outcome q = some e2) :
    ∃ errs, sign_phase_result files outcome = Except.error errs ∧
      e1 ∈ errs ∧ e2 ∈ errs ∧
      ∀ f e, f ∈ files → outcome f = some e → e ∈ errs := by
  have hmem : ∀ (f : List String) (e : String), f ∈ files → outcome f = some e →
      Except.error e ∈ files.map (fun p => match outcome p with
        | some e => Except.error e
        | none => Except.ok ()) := by
    intro f e hf he
    refine List.mem_map.2 ⟨f, hf, ?_⟩
    rw [he]
  obtain ⟨errs, heq, hiff⟩ :=
    raise_future_exceptions_error _ e1 (hmem p e1 hp h1)
  exact ⟨errs, heq, (hiff e1).2 (hmem p e1 hp h1),
    (hiff e2).2 (hmem q e2 hq h2),
    fun f e hf he => (hiff e).2 (hmem f e hf he)⟩

/-- Witness for C6: two failing binaries in one phase, both named in the
aggregate error. -/
theorem sign_phase_error_aggregation_witness :
    (["Contents", "MacOS", "firefox"] : List String) ∈ exampleBundleFiles ∧
    (["Contents", "MacOS", "XUL"] : List String) ∈ exampleBundleFiles ∧
    exampleOutcome ["Contents", "MacOS", "firefox"] =
      some ("codesign failed: firefox") ∧
    exampleOutcome ["Contents", "MacOS", "XUL"] =
      some ("codesign failed: XUL") ∧
    ∃ errs, sign_phase_result exampleBundleFiles exampleOutcome =
        Except.error errs ∧
      ("codesign failed: firefox") ∈ errs ∧ ("codesign failed: XUL") ∈ errs ∧
      ∀ f e, f ∈ exampleBundleFiles → exampleOutcome f = some e → e ∈ errs :=
  ⟨by decide, by decide, by decide, by decide,
    sign_phase_error_aggregation exampleBundleFiles exampleOutcome
      ["Contents", "MacOS", "firefox"] ["Contents", "MacOS", "XUL"]
      ("codesign failed: firefox") ("codesign failed: XUL")
      (by decide) (by decide) (by decide) (by decide)⟩

/-- Witness for C10: one packaged record, empty account pool. -/
theorem wrap_notarization_empty_accounts_diverges_witness :
    ({ work_dir := "work", local_notarization_accounts := [] } : Config).local_notarization_accounts = [] ∧
    ([exampleApp] : List App) ≠ [] ∧
    check_zip_paths [exampleApp] = Except.ok () ∧
    ((∀ counter, notarization_wave ([exampleApp] : List App).length [] counter =
        ([], counter)) ∧
      ∀ fuel, wrap_notarization_with_sudo
          { work_dir := "work", local_notarization_accounts := [] }
          exampleKeyConfig [exampleApp] (fun _ => ⟨0, 0⟩) none fuel =
        Except.ok none) :=
  ⟨rfl, by decide, rfl,
    wrap_notarization_empty_accounts_diverges _ _ _ _ _ rfl (by decide) rfl⟩

/-- Final counter of one wave pass: it advances the counter by the pool
size, capped at the record count. -/
theorem notarization_wave_snd (n : Nat) :
    ∀ (accounts : List String) (counter : Nat), counter < n →
      (notarization_wave n accounts counter).2 =
        min (counter + accounts.length) n := by
  intro accounts
  induction accounts with
  | nil =>
    intro c hc
    simp only [notarization_wave, List.length_nil]
    omega
  | cons a t ih =>
    intro c hc
    unfold notarization_wave
    by_cases hb : n ≤ c + 1
    · rw [if_pos hb]
      simp only [List.length_cons]
      omega
    · rw [if_neg hb]
      dsimp only
      rw [ih (c + 1) (by omega)]
      simp only [List.length_cons]
      omega

/-- Record indices of one wave pass: the next `min M (n - counter)`
indices, in order. -/
theorem notarization_wave_map_snd (n : Nat) :
    ∀ (accounts : List String) (counter : Nat), counter < n →
      ((notarization_wave n accounts counter).1).map Prod.snd =
        List.range' counter (min accounts.length (n - counter)) := by
  intro accounts
  induction accounts with
  | nil =>
    intro c hc
    simp [notarization_wave]
  | cons a t ih =>
    intro c hc
    unfold notarization_wave
    by_cases hb : n ≤ c + 1
    · rw [if_pos hb]
      have h1 : min (a :: t).length (n - c) = 1 := by
        simp only [List.length_cons]
        omega
      rw [h1]
      rfl
    · rw [if_neg hb]
      dsimp only
      rw [List.map_cons, ih (c + 1) (by omega)]
      have h1 : min (a :: t).length (n - c) =
          min t.length (n - (c + 1)) + 1 := by
        simp only [List.length_cons]
        omega
      rw [h1, List.range'_succ]

/-- Accounts of one wave pass: a prefix of the pool, in pool order. -/
theorem notarization_wave_map_fst (n : Nat) :
    ∀ (accounts : List String) (counter : Nat), counter < n →
      ((notarization_wave n accounts counter).1).map Prod.fst =
        accounts.take (min accounts.length (n - counter)) := by
  intro accounts
  induction accounts with
  | nil =>
    intro c hc
    simp [notarization_wave]
  | cons a t ih =>
    intro c hc
    unfold notarization_wave
    by_cases hb : n ≤ c + 1
    · rw [if_pos hb]
      have h1 : min (a :: t).length (n - c) = 1 := by
        simp only [List.length_cons]
        omega
      rw [h1]
      rfl
    · rw [if_neg hb]
      dsimp only
      rw [List.map_cons, ih (c + 1) (by omega)]
      have h1 : min (a :: t).length (n - c) =
          min t.length (n - (c + 1)) + 1 := by
        simp only [List.length_cons]
        omega
      rw [h1, List.take_succ_cons]

/-- The wave loop with sufficient fuel: it terminates, covers the record
indices from `counter` to `n` in order, draws each wave from the account
pool in order, and runs for the ceiling of the remaining records divided by
the pool size. -/
theorem notarization_waves_spec (accounts : List String) (hM : accounts ≠ [])
    (n : Nat) :
    ∀ fuel counter, counter ≤ n → n - counter < fuel →
      ∃ ws, notarization_waves accounts n fuel counter = some ws ∧
        (ws.flatten.map Prod.snd = List.range' counter (n - counter)) ∧
        (∀ w, w ∈ ws → w.length ≤ accounts.length ∧
          w.map Prod.fst = accounts.take w.length) ∧
        ws.length = (n - counter + accounts.length - 1) / accounts.length := by
  have hM0 : 0 < accounts.length := List.length_pos.2 hM
  intro fuel
  induction fuel with
  | zero =>
    intro c hc hf
    omega
  | succ k ih =>
    intro c hc hf
    by_cases hlt : c < n
    · have hw2 : (notarization_wave n accounts c).2 =
          c + min accounts.length (n - c) := by
        rw [notarization_wave_snd n accounts c hlt]
        omega
      obtain ⟨ws, hws, hflat, hwave, hlen⟩ :=
        ih ((notarization_wave n accounts c).2) (by rw [hw2]; omega)
          (by rw [hw2]; omega)
      have hlenw : (notarization_wave n accounts c).1.length =
          min accounts.length (n - c) := by
        have hmap := congrArg List.length (notarization_wave_map_snd n accounts c hlt)
        simpa using hmap
      refine ⟨(notarization_wave n accounts c).1 :: ws, ?_, ?_, ?_, ?_⟩
      · unfold notarization_waves
        rw [if_pos hlt]
        dsimp only
        rw [hws]
      · simp only [List.flatten_cons, List.map_append]
        rw [notarization_wave_map_snd n accounts c hlt, hflat, hw2]
        have happ := List.range'_append c (min accounts.length (n - c))
          (n - (c + min accounts.length (n - c))) 1
        rw [Nat.one_mul] at happ
        have h2 : n - (c + min accounts.length (n - c)) +
            min accounts.length (n - c) = n - c := by omega
        rw [h2] at happ
        exact happ
      · intro w hw
        rcases List.mem_cons.1 hw with hw | hw
        · subst hw
          refine ⟨by omega, ?_⟩
          rw [notarization_wave_map_fst n accounts c hlt, hlenw]
        · exact hwave w hw
      · rw [List.length_cons, hlen, hw2]
        rcases le_or_lt (n - c) accounts.length with hle | hgt
        · have e1 : n - (c + min accounts.length (n - c)) +
              accounts.length - 1 = accounts.length - 1 := by omega
          rw [e1, Nat.div_eq_of_lt (by omega)]
          have e2 : (n - c + accounts.length - 1) / accounts.length = 1 := by
            apply Nat.div_eq_of_lt_le
            · omega
            · have h3 : (1 + 1) * accounts.length = accounts.length + accounts.length := by ring
              omega
          rw [e2]
        · have e1 : n - (c + min accounts.length (n - c)) +
              accounts.length - 1 = n - c - 1 := by omega
          have e2 : n - c + accounts.length - 1 =
              (n - c - 1) + accounts.length := by omega
          rw [e1, e2, Nat.add_div_right _ hM0]
    · have hcn : c = n := by omega
      subst hcn
      refine ⟨[], ?_, ?_, ?_, ?_⟩
      · unfold notarization_waves
        rw [if_neg hlt]
      · rw [Nat.sub_self]
        rfl
      · intro w hw
        cases hw
      · rw [List.length_nil]
        have e : c - c + accounts.length - 1 = accounts.length - 1 := by omega
        rw [e]
        exact (Nat.div_eq_of_lt (by omega)).symm

/-- C7: with a non-empty account pool of size M and n records, the wave
loop terminates, issues every record index exactly once, takes at most M
records per wave with each wave drawing a prefix of the account pool (so at
most one record per account per wave, and distinct accounts whenever the
pool has no duplicates), and runs exactly ceil(n / M) waves. -/
theorem wrap_notarization_wave_schedule (accounts : List String) (n : Nat)
    (hM : accounts ≠ []) :
    ∃ ws, notarization_waves accounts n (n + 1) 0 = some ws ∧
      WaveScheduleSpec accounts n ws := by
  obtain ⟨ws, hws, hflat, hwave, hlen⟩ :=
    notarization_waves_spec accounts hM n (n + 1) 0 (Nat.zero_le n) (by omega)
  rw [Nat.sub_zero] at hflat hlen
  refine ⟨ws, hws, hflat, ?_, hwave, ?_, hlen⟩
  · intro i hi
    rw [hflat]
    exact List.count_eq_one_of_mem (List.nodup_range' 0 n)
      (List.mem_range'_1.2 (by omega))
  · intro hnd w hw
    rw [(hwave w hw).2]
    exact List.Nodup.sublist (List.take_sublist _ _) hnd

/-- Witness for C7: five records over a pool of two accounts give three
waves. -/
theorem wrap_notarization_wave_schedule_witness :
    (["acct1", "acct2"] : List String) ≠ [] ∧
    ∃ ws, notarization_waves ["acct1", "acct2"] 5 6 0 = some ws ∧
      WaveScheduleSpec ["acct1", "acct2"] 5 ws :=
  ⟨by decide, wrap_notarization_wave_schedule ["acct1", "acct2"] 5 (by decide)⟩

/-- An all-literal glob matches exactly the path spelled by its
components. -/
theorem matchPattern_litPat : ∀ (ls path : List String),
    matchPattern (litPat ls) path = true ↔ path = ls := by
  intro ls
  induction ls with
  | nil =>
    intro path
    cases path <;> simp [litPat, matchPattern]
  | cons a t ih =>
    intro path
    cases path with
    | nil => simp [litPat, matchPattern]
    | cons b bt =>
      simp only [litPat, List.map_cons, matchPattern, matchComponent,
        Bool.and_eq_true, decide_eq_true_eq, List.cons.injEq]
      constructor
      · rintro ⟨h1, h2⟩
        exact ⟨h1.symm, (ih bt).1 h2⟩
      · rintro ⟨h1, h2⟩
        exact ⟨h1.symm, (ih bt).2 h2⟩

/-- Two distinct all-literal globs match no common path. -/
theorem match_disj_lit_lit {ls1 ls2 : List String} (h : ls1 ≠ ls2) :
    ∀ path, ¬(matchPattern (litPat ls1) path = true ∧
      matchPattern (litPat ls2) path = true) := by
  rintro path ⟨h1, h2⟩
  rw [matchPattern_litPat] at h1 h2
  exact h (h1 ▸ h2)

/-- An all-literal glob and a pattern that rejects its path match no common
path. -/
theorem match_disj_lit_other {ls : List String} {q : List PatComponent}
    (h : matchPattern q ls = false) :
    ∀ path, ¬(matchPattern (litPat ls) path = true ∧
      matchPattern q path = true) := by
  rintro path ⟨h1, h2⟩
  rw [matchPattern_litPat] at h1
  rw [h1, h] at h2
  cases h2

/-- Symmetric form of `match_disj_lit_other`. -/
theorem match_disj_other_lit {ls : List String} {q : List PatComponent}
    (h : matchPattern q ls = false) :
    ∀ path, ¬(matchPattern q path = true ∧
      matchPattern (litPat ls) path = true) := by
  rintro path ⟨h2, h1⟩
  exact match_disj_lit_other h path ⟨h1, h2⟩

/-- No path matches two distinct patterns of `INITIAL_FILES_TO_SIGN`: the
eight literal globs name pairwise distinct paths, and none of them ends in
`.dylib`, so none is matched by the one wildcard glob. -/
theorem IFTS_disj_all : ∀ p ∈ INITIAL_FILES_TO_SIGN,
    ∀ q ∈ INITIAL_FILES_TO_SIGN, p ≠ q →
    ∀ path, ¬(matchPattern p path = true ∧ matchPattern q path = true) := by
  intro p hp q hq hne
  fin_cases hp <;> fin_cases hq <;>
    first
      | exact absurd rfl hne
      | exact match_disj_lit_lit (by decide)
      | exact match_disj_lit_other (by decide)
      | exact match_disj_other_lit (by decide)

/-- The first-phase file list has no duplicates when the bundle listing has
none. -/
theorem initial_files_nodup (files : List (List String)) (h : files.Nodup) :
    (initial_files files).Nodup := by
  rw [initial_files, List.nodup_flatMap]
  refine ⟨fun pat _ => h.filter _, ?_⟩
  have hnd : INITIAL_FILES_TO_SIGN.Nodup := by decide
  refine List.Pairwise.imp_of_mem ?_ hnd
  intro a b ha hb hne
  intro x hx1 hx2
  rw [List.mem_filter] at hx1 hx2
  exact IFTS_disj_all a ha b hb hne x ⟨hx1.2, hx2.2⟩

/-- Membership in the second-phase list: a bundle file not handled by the
first phase. -/
theorem mem_remaining_files (files : List (List String)) (p : List String) :
    p ∈ remaining_files files ↔ p ∈ files ∧ p ∉ initial_files files := by
  simp [remaining_files, List.mem_filter]

/-- The event constructor for per-file signing is injective. -/
theorem signFile_injective : Function.Injective SignEvent.signFile := by
  intro a b h
  injection h

/-- Occurrences of a per-file signing event across the whole run of `sign`:
once per occurrence in either phase. -/
theorem count_sign_events (files : List (List String)) (p : List String) :
    (sign_events files).count (SignEvent.signFile p) =
      (initial_files files).count p + (remaining_files files).count p := by
  rw [sign_events, List.count_append, List.count_append,
    List.count_map_of_injective _ _ signFile_injective,
    List.count_map_of_injective _ _ signFile_injective]
  have h0 : SignEvent.signFile p ∉
      ([SignEvent.signBundle, SignEvent.verify] : List SignEvent) := by simp
  rw [List.count_eq_zero_of_not_mem h0, Nat.add_zero]

/-- Position comparison across an append: members of the left part sit
before members found only in the right part. -/
theorem indexOf_append_lt {α : Type} [DecidableEq α] {l1 l2 : List α}
    {a b : α} (ha : a ∈ l1) (hb1 : b ∉ l1) (hb2 : b ∈ l2) :
    (l1 ++ l2).indexOf a < (l1 ++ l2).indexOf b := by
  rw [List.indexOf_append_of_mem ha, List.indexOf_append_of_not_mem hb1]
  exact lt_of_lt_of_le (List.indexOf_lt_length.2 ha) (Nat.le_add_right _ _)

/-- C8: per bundle, no file path is passed to the per-file signing command
more than once across the two phases; every initial-glob match is signed
exactly once; the second phase signs exactly the files outside the initial
set; and initial signing precedes remaining-file signing precedes
bundle-level signing precedes verification. -/
theorem sign_two_phase (files : List (List String)) (h : files.Nodup) :
    SignerTwoPhaseSpec files := by
  have hinit := initial_files_nodup files h
  have hrem : (remaining_files files).Nodup := h.filter _
  have hmemrem := mem_remaining_files files
  refine ⟨?_, ?_, hmemrem, ?_, ?_, ?_⟩
  · intro p
    rw [count_sign_events]
    by_cases hp : p ∈ initial_files files
    · have h1 : (initial_files files).count p = 1 :=
        List.count_eq_one_of_mem hinit hp
      have h2 : (remaining_files files).count p = 0 :=
        List.count_eq_zero_of_not_mem (fun hq => ((hmemrem p).1 hq).2 hp)
      omega
    · have h1 : (initial_files files).count p = 0 :=
        List.count_eq_zero_of_not_mem hp
      have h2 : (remaining_files files).count p ≤ 1 :=
        List.nodup_iff_count_le_one.1 hrem p
      omega
  · intro p hp
    rw [count_sign_events]
    have h1 : (initial_files files).count p = 1 :=
      List.count_eq_one_of_mem hinit hp
    have h2 : (remaining_files files).count p = 0 :=
      List.count_eq_zero_of_not_mem (fun hq => ((hmemrem p).1 hq).2 hp)
    omega
  · intro p q hp hq
    rw [sign_events, List.append_assoc]
    apply indexOf_append_lt (List.mem_map_of_mem _ hp)
    · intro hmem
      obtain ⟨q2, hq2, heq⟩ := List.mem_map.1 hmem
      injection heq with heq2
      exact ((hmemrem q).1 hq).2 (heq2 ▸ hq2)
    · exact List.mem_append_left _ (List.mem_map_of_mem _ hq)
  · intro p hp
    rw [sign_events]
    apply indexOf_append_lt
    · by_cases hpi : p ∈ initial_files files
      · exact List.mem_append_left _ (List.mem_map_of_mem _ hpi)
      · exact List.mem_append_right _
          (List.mem_map_of_mem _ ((hmemrem p).2 ⟨hp, hpi⟩))
    · intro hmem
      rcases List.mem_append.1 hmem with hmem | hmem <;>
        · obtain ⟨q2, _, heq⟩ := List.mem_map.1 hmem
          cases heq
    · simp
  · rw [sign_events]
    have hnb : SignEvent.signBundle ∉
        (initial_files files).map SignEvent.signFile ++
          (remaining_files files).map SignEvent.signFile := by
      intro hmem
      rcases List.mem_append.1 hmem with hmem | hmem <;>
        · obtain ⟨q2, _, heq⟩ := List.mem_map.1 hmem
          cases heq
    have hnv : SignEvent.verify ∉
        (initial_files files).map SignEvent.signFile ++
          (remaining_files files).map SignEvent.signFile := by
      intro hmem
      rcases List.mem_append.1 hmem with hmem | hmem <;>
        · obtain ⟨q2, _, heq⟩ := List.mem_map.1 hmem
          cases heq
    rw [List.indexOf_append_of_not_mem hnb, List.indexOf_append_of_not_mem hnv]
    have h1 : List.indexOf SignEvent.signBundle
        [SignEvent.signBundle, SignEvent.verify] = 0 := by decide
    have h2 : List.indexOf SignEvent.verify
        [SignEvent.signBundle, SignEvent.verify] = 1 := by decide
    rw [h1, h2]
    omega

/-- Witness for C8 at a concrete bundle listing containing initial-glob
matches (a literal one and a dylib) and a remaining file. -/
theorem sign_two_phase_witness :
    exampleBundleFiles.Nodup ∧ SignerTwoPhaseSpec exampleBundleFiles :=
  ⟨by decide, sign_two_phase exampleBundleFiles (by decide)⟩

end IscriptMac
